import Mathlib

/-!
Verification of the Deck Task Manager API task/folder engine.

The Firestore-backed repositories (`TaskRepository`, `TaskFolderRepository`)
and the service layer (`TaskService`, `TaskFolderService`) are embedded
shallowly: Firestore timestamps become epoch milliseconds (`Int`), document
snapshots become lists of records, asynchronous reads that can reject become
`Except String` results, and the concurrent fan-out (`docs.map` +
`Promise.all`) becomes a sequential all-or-nothing traversal (`Promise.all`
preserves result order and rejects when any branch rejects, so the
deterministic traversal has the same success results and the same
failure/success behaviour; only the identity of the reported error among
several failing branches is scheduling-dependent).
-/

/-- A task document as stored in a folder's `tasks` subcollection, restricted
to the fields the functions under verification read.  `start_date` and
`end_date` are Firestore timestamps, modelled as epoch milliseconds;
`end_date` is optional because `getNearingDueTasks` null-checks it. -/
structure TaskDoc where
  id : String
  title : String
  description : String
  status : String
  priority : String
  start_date : Int
  end_date : Option Int
deriving DecidableEq, Repr

/-- A folder document restricted to the fields used by the task queries. -/
structure FolderDoc where
  id : String
  title : String
deriving DecidableEq, Repr

/-- JavaScript `String.prototype.toLowerCase` on one character, restricted to
ASCII (the status alphabet only uses ASCII). -/
def lowerChar (c : Char) : Char :=
  if 'A' ≤ c ∧ c ≤ 'Z' then Char.ofNat (c.toNat + 32) else c

/-- JavaScript `toLowerCase` on a string (ASCII case folding). -/
def lowerStr (s : String) : String := ⟨s.data.map lowerChar⟩

/-- One of the three client-facing status buckets. -/
inductive Bucket
  | pending
  | inProgress
  | completed
deriving DecidableEq, Repr

/-- The `switch ((doc.data().status as string).toLowerCase())` statement in
`TaskRepository.getTasksByFolder`: known lowercase spellings select their
bucket, everything else falls through to `pending`. -/
def statusBucket (s : String) : Bucket :=
  match lowerStr s with
  | "pending" => .pending
  | "in progress" => .inProgress
  | "in_progress" => .inProgress
  | "completed" => .completed
  | _ => .pending

/-- A task as returned by `getTasksByFolder`: the task document annotated with
the owning folder's title.  The source builds the flat object
`\x7bid: doc.id, ...doc.data(), folder_source: folderTitle\x7d`; pairing the
document with the label is the same data. -/
structure TaskOut where
  task : TaskDoc
  folder_source : String
deriving DecidableEq, Repr

/-- The three status buckets returned by `getTasksByFolder`. -/
structure TaskBuckets where
  pending : List TaskOut
  inProgress : List TaskOut
  completed : List TaskOut
deriving DecidableEq, Repr

/-- The folder title fallback `folderDoc.data()?.title || "Untitled Folder"`:
the JavaScript `||` also replaces the falsy empty string. -/
def resolveFolderTitle (fd : FolderDoc) : String :=
  if fd.title = "" then "Untitled Folder" else fd.title

/-- Annotate one task document with its folder source label. -/
def mkTaskOut (folderTitle : String) (t : TaskDoc) : TaskOut :=
  ⟨t, folderTitle⟩

/-- `TaskRepository.getTasksByFolder` (current version, src/unnamed/part_008
lines 259-339).  Inputs are the two store reads the function performs: the
folder document (`none` when `!folderDoc.exists`, which raises the 404
`ApiError`) and the ordered task snapshot.  The `forEach` loop pushes each
document into exactly the bucket selected by the `switch`, so each bucket is
the in-order subsequence of documents routed to it: a `filter`. -/
def TaskRepository.getTasksByFolder (folderDoc? : Option FolderDoc)
    (taskSnap : List TaskDoc) : Except String TaskBuckets :=
  match folderDoc? with
  | none => .error "Task folder not found"
  | some fd =>
    let folderTitle := resolveFolderTitle fd
    if taskSnap.isEmpty then .ok ⟨[], [], []⟩
    else
      .ok ⟨(taskSnap.filter fun t => decide (statusBucket t.status = .pending)).map
             (mkTaskOut folderTitle),
           (taskSnap.filter fun t => decide (statusBucket t.status = .inProgress)).map
             (mkTaskOut folderTitle),
           (taskSnap.filter fun t => decide (statusBucket t.status = .completed)).map
             (mkTaskOut folderTitle)⟩

lemma mkTaskOut_injective (folderTitle : String) :
    Function.Injective (mkTaskOut folderTitle) := by
  intro a b h
  exact congrArg TaskOut.task h

/-- The three bucket filters split every list exactly. -/
lemma bucket_filter_length (l : List TaskDoc) :
    (l.filter fun t => decide (statusBucket t.status = .pending)).length
      + (l.filter fun t => decide (statusBucket t.status = .inProgress)).length
      + (l.filter fun t => decide (statusBucket t.status = .completed)).length
      = l.length := by
  induction l with
  | nil => rfl
  | cons hd tl ih =>
    rcases hB : statusBucket hd.status <;>
      simp [List.filter_cons, hB] <;> omega

/-- Each document's multiplicity is preserved: its count across the three
bucket filters equals its count in the snapshot. -/
lemma bucket_filter_count (l : List TaskDoc) (d : TaskDoc) :
    (l.filter fun t => decide (statusBucket t.status = .pending)).count d
      + (l.filter fun t => decide (statusBucket t.status = .inProgress)).count d
      + (l.filter fun t => decide (statusBucket t.status = .completed)).count d
      = l.count d := by
  have hzero : ∀ b : Bucket, statusBucket d.status ≠ b →
      (l.filter fun t => decide (statusBucket t.status = b)).count d = 0 := by
    intro b hb
    exact List.count_eq_zero.mpr
      (fun hmem => hb (by simpa using (List.mem_filter.mp hmem).2))
  rcases hB : statusBucket d.status with _ | _ | _
  · rw [hzero .inProgress (by simp [hB]), hzero .completed (by simp [hB]),
      List.count_filter (by simp [hB])]
    omega
  · rw [hzero .pending (by simp [hB]), hzero .completed (by simp [hB]),
      List.count_filter (by simp [hB])]
    omega
  · rw [hzero .pending (by simp [hB]), hzero .inProgress (by simp [hB]),
      List.count_filter (by simp [hB])]
    omega

/-- Demo task documents for concrete evaluations. -/
def demoT1 : TaskDoc := ⟨"t1", "Laundry", "wash clothes", "pending", "High", 0, some 0⟩

def demoT2 : TaskDoc := ⟨"t2", "Dishes", "clean dishes", "Completed", "Low", 0, some 0⟩

def demoT3 : TaskDoc := ⟨"t3", "Mystery", "odd status", "archived", "Medium", 0, none⟩

def demoSnap : List TaskDoc := [demoT1, demoT2, demoT3]

def demoBuckets : TaskBuckets :=
  ⟨[mkTaskOut "Work" demoT1, mkTaskOut "Work" demoT3], [], [mkTaskOut "Work" demoT2]⟩

/-- Claim C2: for every folder containing N tasks, `getTasksByFolder`
distributes exactly those N tasks over the buckets `pending`, `inProgress`
and `completed`: the bucket sizes sum to N, and each task's multiplicity
across the three buckets equals its multiplicity in the folder, so no task is
dropped or duplicated and every task lands in exactly one bucket. -/
theorem getTasksByFolder_partitions (fd : FolderDoc) (taskSnap : List TaskDoc)
    (b : TaskBuckets)
    (hb : TaskRepository.getTasksByFolder (some fd) taskSnap = .ok b) :
    b.pending.length + b.inProgress.length + b.completed.length = taskSnap.length
    ∧ ∀ d ∈ taskSnap,
        b.pending.count (mkTaskOut (resolveFolderTitle fd) d)
          + b.inProgress.count (mkTaskOut (resolveFolderTitle fd) d)
          + b.completed.count (mkTaskOut (resolveFolderTitle fd) d)
          = taskSnap.count d := by
  have hmk := mkTaskOut_injective (resolveFolderTitle fd)
  unfold TaskRepository.getTasksByFolder at hb
  by_cases he : taskSnap.isEmpty
  · rw [List.isEmpty_iff] at he
    subst he
    simp at hb
    subst hb
    simp
  · simp [he] at hb
    subst hb
    refine ⟨by simpa using bucket_filter_length taskSnap, ?_⟩
    intro d _
    simp only [List.count_map_of_injective _ _ hmk]
    exact bucket_filter_count taskSnap d

/-- Witness for C2: a folder with three tasks (statuses `pending`,
`Completed`, and the unrecognized `archived`) splits 2 / 0 / 1 and keeps
every task exactly once. -/
theorem getTasksByFolder_partitions_witness :
    demoBuckets.pending.length + demoBuckets.inProgress.length
        + demoBuckets.completed.length = demoSnap.length
    ∧ demoBuckets.pending.count (mkTaskOut (resolveFolderTitle ⟨"f1", "Work"⟩) demoT1)
        + demoBuckets.inProgress.count (mkTaskOut (resolveFolderTitle ⟨"f1", "Work"⟩) demoT1)
        + demoBuckets.completed.count (mkTaskOut (resolveFolderTitle ⟨"f1", "Work"⟩) demoT1)
        = demoSnap.count demoT1 :=
  ⟨(getTasksByFolder_partitions ⟨"f1", "Work"⟩ demoSnap demoBuckets rfl).1,
   (getTasksByFolder_partitions ⟨"f1", "Work"⟩ demoSnap demoBuckets rfl).2 demoT1
     (by decide)⟩

/-- A task document whose stored status carries trailing whitespace. -/
def demoTrailing : TaskDoc :=
  ⟨"t9", "Essay", "write essay", "COMPLETED ", "High", 0, some 0⟩

/-- Claim C3 counterexample: the normalization only lower-cases and never
trims, so the stored status string with trailing whitespace is NOT routed to
the completed bucket; the whole task lands in `pending` via the
unknown-status fallback. -/
theorem statusBucket_no_trim_counterexample :
    TaskRepository.getTasksByFolder (some ⟨"f1", "Work"⟩) [demoTrailing] =
      .ok ⟨[mkTaskOut "Work" demoTrailing], [], []⟩
    ∧ statusBucket "COMPLETED " ≠ Bucket.completed :=
  ⟨rfl, by decide⟩

/-- Claim C3 (amended): the status normalization lower-cases but does not
trim.  `"Completed"` and `"completed"` route to the completed bucket;
`"COMPLETED "` (trailing whitespace) routes to the pending bucket through the
unknown-status fallback; `"in progress"` and `"in_progress"` route
case-insensitively to the inProgress bucket; and every status string not
matching a known bucket routes to pending rather than being dropped. -/
theorem statusBucket_normalization :
    statusBucket "Completed" = .completed
    ∧ statusBucket "completed" = .completed
    ∧ statusBucket "COMPLETED " = .pending
    ∧ (∀ s, lowerStr s = "in progress" ∨ lowerStr s = "in_progress" →
        statusBucket s = .inProgress)
    ∧ (∀ s, lowerStr s ≠ "pending" → lowerStr s ≠ "in progress" →
        lowerStr s ≠ "in_progress" → lowerStr s ≠ "completed" →
        statusBucket s = .pending) := by
  refine ⟨by decide, by decide, by decide, ?_, ?_⟩
  · intro s h
    unfold statusBucket
    rcases h with h | h <;> rw [h] <;> rfl
  · intro s h1 h2 h3 h4
    unfold statusBucket
    split <;> simp_all

/-- Witness for C3 (amended): concrete instances of the two quantified
conjuncts. -/
theorem statusBucket_normalization_witness :
    statusBucket "IN PROGRESS" = .inProgress ∧ statusBucket "later" = .pending :=
  ⟨statusBucket_normalization.2.2.2.1 "IN PROGRESS" (Or.inl (by decide)),
   statusBucket_normalization.2.2.2.2 "later" (by decide) (by decide) (by decide)
     (by decide)⟩

/-- The fan-out in `getTasksByUserId`: `foldersSnap.docs.map(async ...)` +
`Promise.all`.  `Promise.all` keeps the per-folder results in folder order and
rejects as soon as any branch rejects, so the aggregate is this
all-or-nothing traversal (when several branches fail, which branch's error is
reported is scheduling-dependent; failure itself is not). -/
def fanOutTaskReads (readTasks : String → Except String (List TaskDoc)) :
    List FolderDoc → Except String (List (List TaskDoc))
  | [] => .ok []
  | fd :: rest =>
    match readTasks fd.id with
    | .error e => .error e
    | .ok ts =>
      match fanOutTaskReads readTasks rest with
      | .error e => .error e
      | .ok restArrs => .ok (ts :: restArrs)

/-- `TaskRepository.getTasksByUserId` (current version, src/unnamed/part_008
lines 149-184).  Inputs are the folder snapshot and the per-folder task read
issued against the store (which may reject).  An empty folder snapshot and an
empty flattened result both return `null` (`none`); the surrounding
`try/catch` wraps any error into the `ApiError` message and re-throws. -/
def TaskRepository.getTasksByUserId (foldersSnap : List FolderDoc)
    (readTasks : String → Except String (List TaskDoc)) :
    Except String (Option (List TaskDoc)) :=
  if foldersSnap.isEmpty then .ok none
  else
    match fanOutTaskReads readTasks foldersSnap with
    | .ok taskArrays =>
      let allTasks := taskArrays.flatten
      .ok (if allTasks.length > 0 then some allTasks else none)
    | .error e => .error ("Error fetching tasks by user ID: " ++ e)

lemma fanOutTaskReads_ok (readTasks : String → Except String (List TaskDoc))
    (g : FolderDoc → List TaskDoc) :
    ∀ l : List FolderDoc, (∀ fd ∈ l, readTasks fd.id = .ok (g fd)) →
      fanOutTaskReads readTasks l = .ok (l.map g) := by
  intro l
  induction l with
  | nil => intro _; rfl
  | cons hd tl ih =>
    intro h
    have hhd := h hd (by simp)
    have htl := ih fun fd hfd => h fd (by simp [hfd])
    simp [fanOutTaskReads, hhd, htl]

lemma fanOutTaskReads_error (readTasks : String → Except String (List TaskDoc)) :
    ∀ l : List FolderDoc, (∃ fd ∈ l, ∃ msg, readTasks fd.id = .error msg) →
      ∃ e, fanOutTaskReads readTasks l = .error e := by
  intro l
  induction l with
  | nil => rintro ⟨fd, hfd, _⟩; cases hfd
  | cons hd tl ih =>
    rintro ⟨fd, hfd, msg, hmsg⟩
    rcases List.mem_cons.mp hfd with heq | htl
    · subst heq
      exact ⟨msg, by simp [fanOutTaskReads, hmsg]⟩
    · cases hread : readTasks hd.id with
      | error e => exact ⟨e, by simp [fanOutTaskReads, hread]⟩
      | ok ts =>
        obtain ⟨e, he⟩ := ih ⟨fd, htl, msg, hmsg⟩
        exact ⟨e, by simp [fanOutTaskReads, hread, he]⟩

/-- Claim C1: `getTasksByUserId` is all-or-nothing.  When every per-folder
read succeeds, the call returns exactly the concatenation of every folder's
task list; and when any single per-folder read fails, the whole call fails
instead of returning a shortened list. -/
theorem getTasksByUserId_all_or_nothing (foldersSnap : List FolderDoc)
    (readTasks : String → Except String (List TaskDoc))
    (g : FolderDoc → List TaskDoc) :
    ((∀ fd ∈ foldersSnap, readTasks fd.id = .ok (g fd)) →
      (foldersSnap.map g).flatten ≠ [] →
      TaskRepository.getTasksByUserId foldersSnap readTasks =
        .ok (some ((foldersSnap.map g).flatten)))
    ∧ ((∃ fd ∈ foldersSnap, ∃ msg, readTasks fd.id = .error msg) →
      ∃ e, TaskRepository.getTasksByUserId foldersSnap readTasks = .error e) := by
  constructor
  · intro hok hne
    have hsnap : ¬ foldersSnap.isEmpty := by
      rcases foldersSnap with _ | _
      · simp at hne
      · simp
    unfold TaskRepository.getTasksByUserId
    rw [if_neg hsnap, fanOutTaskReads_ok readTasks g foldersSnap hok]
    have hlen : 0 < ((foldersSnap.map g).flatten).length := List.length_pos.mpr hne
    simp only [gt_iff_lt, hlen, if_true]
  · rintro ⟨fd, hfd, msg, hmsg⟩
    have hsnap : ¬ foldersSnap.isEmpty := by
      rcases foldersSnap with _ | _
      · cases hfd
      · simp
    obtain ⟨e, he⟩ := fanOutTaskReads_error readTasks foldersSnap ⟨fd, hfd, msg, hmsg⟩
    exact ⟨"Error fetching tasks by user ID: " ++ e, by
      unfold TaskRepository.getTasksByUserId
      rw [if_neg hsnap, he]⟩

/-- The per-folder task collections of the demo user: folder `f1` holds 2
tasks, `f2` holds 0, `f3` holds 4. -/
def demoTasksOf (folderId : String) : List TaskDoc :=
  if folderId = "f1" then
    [⟨"a1", "A1", "d", "pending", "High", 0, none⟩,
     ⟨"a2", "A2", "d", "completed", "Low", 0, none⟩]
  else if folderId = "f3" then
    [⟨"b1", "B1", "d", "pending", "High", 0, none⟩,
     ⟨"b2", "B2", "d", "pending", "High", 0, none⟩,
     ⟨"b3", "B3", "d", "in progress", "High", 0, none⟩,
     ⟨"b4", "B4", "d", "completed", "High", 0, none⟩]
  else []

def demoFolders : List FolderDoc := [⟨"f1", "School"⟩, ⟨"f2", "Chores"⟩, ⟨"f3", "Work"⟩]

/-- A store where every per-folder read succeeds. -/
def demoRead (folderId : String) : Except String (List TaskDoc) :=
  .ok (demoTasksOf folderId)

/-- A store where the read for the empty folder `f2` fails transiently. -/
def demoReadFail (folderId : String) : Except String (List TaskDoc) :=
  if folderId = "f2" then .error "unavailable" else .ok (demoTasksOf folderId)

/-- Witness for C1: with folders of 2, 0 and 4 tasks the call returns exactly
the 6 concatenated tasks, and when the read for the empty folder fails the
whole call fails. -/
theorem getTasksByUserId_all_or_nothing_witness :
    TaskRepository.getTasksByUserId demoFolders demoRead =
      .ok (some ((demoFolders.map fun fd => demoTasksOf fd.id).flatten))
    ∧ ((demoFolders.map fun fd => demoTasksOf fd.id).flatten).length = 6
    ∧ (∃ e, TaskRepository.getTasksByUserId demoFolders demoReadFail = .error e)
    ∧ TaskRepository.getTasksByUserId demoFolders demoReadFail =
        .error "Error fetching tasks by user ID: unavailable" :=
  ⟨(getTasksByUserId_all_or_nothing demoFolders demoRead
      (fun fd => demoTasksOf fd.id)).1 (fun _ _ => rfl) (by decide),
   by decide,
   (getTasksByUserId_all_or_nothing demoFolders demoReadFail
      (fun fd => demoTasksOf fd.id)).2 ⟨⟨"f2", "Chores"⟩, by decide, "unavailable", rfl⟩,
   rfl⟩

/-- The value held by the `message` field of the service envelope: the source
stores either a human-readable string or the fetched payload there. -/
inductive SvcData (α : Type) where
  | text (s : String)
  | data (a : α)
deriving DecidableEq, Repr

/-- The `BaseResponse` envelope `\x7bsuccess, message\x7d` returned by the
service layer. -/
structure SvcResponse (α : Type) where
  success : Bool
  message : SvcData α
deriving DecidableEq, Repr

/-- `TaskService.getTasksByUser` (src/unnamed/part_003 lines 25-33): wraps the
repository result; the repository value (including `null`) is placed directly
in `message` with `success: true`, and a thrown error becomes `success: false`
with a prefixed message. -/
def TaskService.getTasksByUser
    (repoResult : Except String (Option (List TaskDoc))) :
    SvcResponse (Option (List TaskDoc)) :=
  match repoResult with
  | .ok r => ⟨true, .data r⟩
  | .error e => ⟨false, .text ("Error fetching task: " ++ e)⟩

/-- Claim C10: `getTasksByUserId` returns `null` (`none`) rather than an
empty array both when the user has no folders and when every folder's task
collection is empty — the two cases are indistinguishable from the return
value — and the service wraps this `null` in a `success: true` envelope. -/
theorem getTasksByUserId_null_on_empty (foldersSnap : List FolderDoc)
    (readTasks : String → Except String (List TaskDoc)) :
    TaskRepository.getTasksByUserId [] readTasks = .ok none
    ∧ ((∀ fd ∈ foldersSnap, readTasks fd.id = .ok []) →
        TaskRepository.getTasksByUserId foldersSnap readTasks = .ok none)
    ∧ TaskService.getTasksByUser (.ok none) =
        { success := true, message := .data none } := by
  refine ⟨rfl, ?_, rfl⟩
  intro hok
  rcases foldersSnap with _ | ⟨hd, tl⟩
  · rfl
  · unfold TaskRepository.getTasksByUserId
    rw [if_neg (by simp),
      fanOutTaskReads_ok readTasks (fun _ => []) (hd :: tl) hok]
    simp

/-- Witness for C10: a user with two folders whose task collections are both
empty gets the same `.ok none` as a user with no folders, and the service
reports it as success. -/
theorem getTasksByUserId_null_on_empty_witness :
    TaskRepository.getTasksByUserId [] demoRead = .ok none
    ∧ TaskRepository.getTasksByUserId [⟨"f2", "Chores"⟩, ⟨"f4", "Empty"⟩] demoRead
        = .ok none
    ∧ TaskService.getTasksByUser (.ok none) =
        { success := true, message := .data none } :=
  ⟨(getTasksByUserId_null_on_empty [] demoRead).1,
   (getTasksByUserId_null_on_empty [⟨"f2", "Chores"⟩, ⟨"f4", "Empty"⟩] demoRead).2.1
     (by intro fd hfd; fin_cases hfd <;> rfl),
   (getTasksByUserId_null_on_empty [] demoRead).2.2⟩

/-- One folder as read by `getNearingDueTasks`: the folder document's id and
title plus its task snapshot (the query orders by `end_date`; the order plays
no role in which tasks qualify). -/
structure NearFolder where
  id : String
  title : String
  tasks : List TaskDoc
deriving DecidableEq, Repr

/-- An item of the nearing-due result list: the object literal pushed by
`getNearingDueTasks`, carrying the task fields plus `task_folder_id` and
`folder_source`. -/
structure NearTask where
  id : String
  task_folder_id : String
  title : String
  description : String
  status : String
  priority : String
  start_date : Int
  end_date : Option Int
  folder_source : String
deriving DecidableEq, Repr

/-- Build the result item for one qualifying task. -/
def mkNearTask (folderId folderTitle : String) (t : TaskDoc) : NearTask :=
  ⟨t.id, folderId, t.title, t.description, t.status, t.priority, t.start_date,
   t.end_date, folderTitle⟩

/-- The filter applied to each task by `getNearingDueTasks`: status must be
exactly `"pending"` or `"in progress"` (strict `===` comparisons), `end_date`
must be present, and `diffInDays = (end_date - now) / 86400000` must satisfy
`0 ≤ diffInDays ≤ daysThreshold`.  The source computes `diffInDays` as a real
number; dividing by the positive constant 86 400 000 preserves order, so the
comparison is the division-free integer condition below. -/
def nearingPred (now daysThreshold : Int) (t : TaskDoc) : Bool :=
  if t.status = "pending" ∨ t.status = "in progress" then
    match t.end_date with
    | some e => decide (e - now ≤ daysThreshold * 86400000 ∧ 0 ≤ e - now)
    | none => false
  else false

/-- `TaskRepository.getNearingDueTasks` (src/unnamed/part_008 lines 194-244).
The concurrent per-folder scan pushes qualifying tasks into one shared list;
cross-folder interleaving is scheduling-dependent, so we fix folder order —
which tasks appear is unaffected. -/
def TaskRepository.getNearingDueTasks (now : Int) (folders : List NearFolder)
    (daysThreshold : Int) : List NearTask :=
  if folders.isEmpty then []
  else
    (folders.map fun f =>
      (f.tasks.filter (nearingPred now daysThreshold)).map
        (mkNearTask f.id f.title)).flatten

lemma nearingPred_eq_true (now d : Int) (t : TaskDoc) :
    nearingPred now d t = true ↔
      ((t.status = "pending" ∨ t.status = "in progress")
        ∧ ∃ e, t.end_date = some e ∧ 0 ≤ e - now ∧ e - now ≤ d * 86400000) := by
  unfold nearingPred
  by_cases hs : t.status = "pending" ∨ t.status = "in progress"
  · rw [if_pos hs]
    cases he : t.end_date with
    | none => simp [he]
    | some e =>
      simp only [decide_eq_true_eq, Option.some.injEq]
      constructor
      · rintro ⟨h1, h2⟩
        exact ⟨hs, e, rfl, h2, h1⟩
      · rintro ⟨-, e', he', h0, h3⟩
        cases he'
        exact ⟨h3, h0⟩
  · rw [if_neg hs]
    simp [hs]

lemma mem_getNearingDueTasks (now d : Int) (folders : List NearFolder)
    (r : NearTask) :
    r ∈ TaskRepository.getNearingDueTasks now folders d ↔
      ∃ f ∈ folders, ∃ t ∈ f.tasks,
        nearingPred now d t = true ∧ mkNearTask f.id f.title t = r := by
  unfold TaskRepository.getNearingDueTasks
  rcases folders with _ | ⟨hd, tl⟩
  · simp
  · rw [if_neg (by simp)]
    constructor
    · intro hr
      obtain ⟨l, hl, hrl⟩ := List.mem_flatten.mp hr
      obtain ⟨f, hf, rfl⟩ := List.mem_map.mp hl
      obtain ⟨t, ht, rfl⟩ := List.mem_map.mp hrl
      have hft := List.mem_filter.mp ht
      exact ⟨f, hf, t, hft.1, hft.2, rfl⟩
    · rintro ⟨f, hf, t, ht, hpred, rfl⟩
      refine List.mem_flatten.mpr ⟨_, List.mem_map.mpr ⟨f, hf, rfl⟩, ?_⟩
      exact List.mem_map.mpr ⟨t, List.mem_filter.mpr ⟨ht, hpred⟩, rfl⟩

/-- Claim C4: a task with status exactly `"pending"` or `"in progress"` is in
the nearing-due list (threshold 3) precisely when it has an `end_date` and
`0 ≤ end_date − now ≤ 3` days; a completed task is never included, whatever
its dates; a task with no `end_date` never qualifies (the iff's right side is
unsatisfiable for it). -/
theorem getNearingDueTasks_window (now : Int) (folders : List NearFolder)
    (f : NearFolder) (t : TaskDoc) (hf : f ∈ folders) (ht : t ∈ f.tasks) :
    ((t.status = "pending" ∨ t.status = "in progress") →
      (mkNearTask f.id f.title t ∈
          TaskRepository.getNearingDueTasks now folders 3 ↔
        ∃ e, t.end_date = some e ∧ 0 ≤ e - now ∧ e - now ≤ 3 * 86400000))
    ∧ (t.status = "completed" →
        mkNearTask f.id f.title t ∉
          TaskRepository.getNearingDueTasks now folders 3) := by
  constructor
  · intro hs
    rw [mem_getNearingDueTasks]
    constructor
    · rintro ⟨f', hf', t', ht', hpred, heq⟩
      have hend : t'.end_date = t.end_date := congrArg NearTask.end_date heq
      obtain ⟨-, e, he, h0, h3⟩ := (nearingPred_eq_true now 3 t').mp hpred
      exact ⟨e, by rw [← hend]; exact he, h0, h3⟩
    · rintro ⟨e, he, h0, h3⟩
      exact ⟨f, hf, t, ht, (nearingPred_eq_true now 3 t).mpr ⟨hs, e, he, h0, h3⟩, rfl⟩
  · intro hs hmem
    rw [mem_getNearingDueTasks] at hmem
    obtain ⟨f', hf', t', ht', hpred, heq⟩ := hmem
    have hstat : t'.status = t.status := congrArg NearTask.status heq
    obtain ⟨hps, -⟩ := (nearingPred_eq_true now 3 t').mp hpred
    rw [hstat, hs] at hps
    rcases hps with h | h <;> exact absurd h (by decide)

/-- Concrete tasks for the nearing-due example: `now` is 2024-01-10 UTC
(epoch ms 1704844800000). -/
def nearT_in : TaskDoc :=
  ⟨"n1", "Due soon", "d", "pending", "High", 0, some 1705017600000⟩

def nearT_far : TaskDoc :=
  ⟨"n2", "Due later", "d", "pending", "High", 0, some 1705276800000⟩

def nearT_past : TaskDoc :=
  ⟨"n3", "Overdue", "d", "pending", "High", 0, some 1704758400000⟩

def nearT_done : TaskDoc :=
  ⟨"n4", "Done", "d", "completed", "High", 0, some 1704931200000⟩

def nearDemoFolder : NearFolder :=
  ⟨"f1", "School", [nearT_in, nearT_far, nearT_past, nearT_done]⟩

/-- Witness for C4, at `now` = 2024-01-10: a pending task due 2024-01-12 is
included; pending tasks due 2024-01-15 (too far) and 2024-01-09 (already
past) are excluded; a completed task due 2024-01-11 is excluded. -/
theorem getNearingDueTasks_window_witness :
    mkNearTask "f1" "School" nearT_in ∈
        TaskRepository.getNearingDueTasks 1704844800000 [nearDemoFolder] 3
    ∧ mkNearTask "f1" "School" nearT_far ∉
        TaskRepository.getNearingDueTasks 1704844800000 [nearDemoFolder] 3
    ∧ mkNearTask "f1" "School" nearT_past ∉
        TaskRepository.getNearingDueTasks 1704844800000 [nearDemoFolder] 3
    ∧ mkNearTask "f1" "School" nearT_done ∉
        TaskRepository.getNearingDueTasks 1704844800000 [nearDemoFolder] 3 := by
  refine ⟨?_, ?_, ?_, ?_⟩
  · exact ((getNearingDueTasks_window 1704844800000 [nearDemoFolder]
        nearDemoFolder nearT_in (by decide) (by decide)).1 (Or.inl rfl)).mpr
      ⟨1705017600000, rfl, by decide, by decide⟩
  · intro hmem
    obtain ⟨e, he, h0, h3⟩ := ((getNearingDueTasks_window 1704844800000
        [nearDemoFolder] nearDemoFolder nearT_far (by decide) (by decide)).1
        (Or.inl rfl)).mp hmem
    have he2 : some (1705276800000 : Int) = some e := he
    injection he2 with he3
    omega
  · intro hmem
    obtain ⟨e, he, h0, h3⟩ := ((getNearingDueTasks_window 1704844800000
        [nearDemoFolder] nearDemoFolder nearT_past (by decide) (by decide)).1
        (Or.inl rfl)).mp hmem
    have he2 : some (1704758400000 : Int) = some e := he
    injection he2 with he3
    omega
  · exact (getNearingDueTasks_window 1704844800000 [nearDemoFolder]
      nearDemoFolder nearT_done (by decide) (by decide)).2 rfl

/-- Claim C5 (amended): for a task inside the due window, inclusion in the
nearing-due list depends on the exact stored spelling: the task is included
iff its status is literally `"pending"` or `"in progress"`; capitalised or
underscored variants such as `"Pending"` or `"in_progress"` are excluded. -/
theorem getNearingDueTasks_status_exact (now : Int) (folders : List NearFolder)
    (f : NearFolder) (t : TaskDoc) (hf : f ∈ folders) (ht : t ∈ f.tasks)
    (e : Int) (he : t.end_date = some e) (h0 : 0 ≤ e - now)
    (h3 : e - now ≤ 3 * 86400000) :
    mkNearTask f.id f.title t ∈
        TaskRepository.getNearingDueTasks now folders 3 ↔
      (t.status = "pending" ∨ t.status = "in progress") := by
  rw [mem_getNearingDueTasks]
  constructor
  · rintro ⟨f', hf', t', ht', hpred, heq⟩
    have hstat : t'.status = t.status := congrArg NearTask.status heq
    obtain ⟨hps, -⟩ := (nearingPred_eq_true now 3 t').mp hpred
    rw [hstat] at hps
    exact hps
  · intro hs
    exact ⟨f, hf, t, ht, (nearingPred_eq_true now 3 t).mpr ⟨hs, e, he, h0, h3⟩, rfl⟩

/-- Two tasks identical except for the spelling of their incomplete status,
both due one day from `now = 0`. -/
def spellT_lower : TaskDoc := ⟨"s1", "S1", "d", "pending", "High", 0, some 86400000⟩

def spellT_cap : TaskDoc := ⟨"s2", "S2", "d", "Pending", "High", 0, some 86400000⟩

def spellT_underscore : TaskDoc :=
  ⟨"s3", "S3", "d", "in_progress", "High", 0, some 86400000⟩

def spellDemoFolder : NearFolder :=
  ⟨"f1", "School", [spellT_lower, spellT_cap, spellT_underscore]⟩

/-- Claim C5 counterexample: `getNearingDueTasks` compares status strings with
strict equality, so among three tasks in the window that differ only in the
spelling of their incomplete status, the `"pending"` one is included while the
`"Pending"` and `"in_progress"` ones are excluded — changing the spelling
variant changes inclusion. -/
theorem getNearingDueTasks_case_sensitivity_counterexample :
    mkNearTask "f1" "School" spellT_lower ∈
        TaskRepository.getNearingDueTasks 0 [spellDemoFolder] 3
    ∧ mkNearTask "f1" "School" spellT_cap ∉
        TaskRepository.getNearingDueTasks 0 [spellDemoFolder] 3
    ∧ mkNearTask "f1" "School" spellT_underscore ∉
        TaskRepository.getNearingDueTasks 0 [spellDemoFolder] 3 := by
  decide

/-- Witness for C5 (amended): the iff applied to the in-window `"pending"`
task yields its inclusion, and applied to the `"Pending"` task yields its
exclusion. -/
theorem getNearingDueTasks_status_exact_witness :
    mkNearTask "f1" "School" spellT_lower ∈
        TaskRepository.getNearingDueTasks 0 [spellDemoFolder] 3
    ∧ mkNearTask "f1" "School" spellT_cap ∉
        TaskRepository.getNearingDueTasks 0 [spellDemoFolder] 3 := by
  constructor
  · exact (getNearingDueTasks_status_exact 0 [spellDemoFolder] spellDemoFolder
      spellT_lower (by decide) (by decide) 86400000 rfl (by decide)
      (by decide)).mpr (Or.inl rfl)
  · intro hmem
    have hs := (getNearingDueTasks_status_exact 0 [spellDemoFolder] spellDemoFolder
      spellT_cap (by decide) (by decide) 86400000 rfl (by decide)
      (by decide)).mp hmem
    rcases hs with h | h <;> exact absurd h (by decide)

/-- The slice of the document store holding one user's data: the folder
documents (id paired with title) and the task documents keyed by the folder
path they live under.  In Firestore a task document's path exists
independently of the folder document, so the two lists are independent. -/
structure UserStore where
  folderDocs : List (String × String)
  taskDocs : List (String × TaskDoc)
deriving DecidableEq, Repr

/-- The external document store's `recursiveDelete` primitive (spec's store
contract): removes the document at the folder path together with every
document beneath it. -/
def Firestore.recursiveDelete (s : UserStore) (folderId : String) : UserStore :=
  ⟨s.folderDocs.filter fun p => decide (p.1 ≠ folderId),
   s.taskDocs.filter fun p => decide (p.1 ≠ folderId)⟩

/-- `TaskFolderRepository.deleteTaskFolder` (current version,
src/unnamed/part_010 lines 132-144): awaits `db.recursiveDelete(folderRef)`.
`storeOk` says whether the store call fulfills; a rejected call propagates as
an error (the `await` is not wrapped), and only a fulfilled call returns,
with the subtree removed per the primitive's contract. -/
def TaskFolderRepository.deleteTaskFolder (s : UserStore) (folderId : String)
    (storeOk : Bool) : Except String UserStore :=
  if storeOk then .ok (Firestore.recursiveDelete s folderId)
  else .error "recursiveDelete failed"

/-- The folder document at a path, as `getTasksByFolder` reads it. -/
def UserStore.folderDoc? (s : UserStore) (folderId : String) : Option FolderDoc :=
  (s.folderDocs.find? fun p => decide (p.1 = folderId)).map fun p => ⟨p.1, p.2⟩

/-- The task snapshot of one folder's `tasks` subcollection. -/
def UserStore.tasksOf (s : UserStore) (folderId : String) : List TaskDoc :=
  (s.taskDocs.filter fun p => decide (p.1 = folderId)).map Prod.snd

/-- `TaskRepository.getTaskByTaskId` (src/unnamed/part_008 lines 350-361) run
against the store: point read of one task document under the folder path;
absent resolves to `null`. -/
def TaskRepository.getTaskByTaskId (s : UserStore) (folderId taskId : String) :
    Option TaskDoc :=
  (s.tasksOf folderId).find? fun t => decide (t.id = taskId)

/-- `getTasksByFolder` issued against a store state. -/
def TaskRepository.getTasksByFolderIn (s : UserStore) (folderId : String) :
    Except String TaskBuckets :=
  TaskRepository.getTasksByFolder (s.folderDoc? folderId) (s.tasksOf folderId)

lemma filter_eq_after_filter_ne {α : Type} (l : List (String × α))
    (fid : String) :
    (l.filter fun p => decide (p.1 ≠ fid)).filter (fun p => decide (p.1 = fid))
      = [] := by
  induction l with
  | nil => rfl
  | cons hd tl ih => by_cases h : hd.1 = fid <;> simp [List.filter_cons, h, ih]

/-- Claim C6: deleting a folder removes the folder together with every task
beneath it; whenever `deleteTaskFolder` reports success, zero tasks remain
retrievable under that folder's path — the task snapshot is empty, every
point lookup under the path yields `null`, and the folder read itself now
fails with `NotFound`.  A failed store call surfaces as an error, never as
success. -/
theorem deleteTaskFolder_cascades (s : UserStore) (folderId : String)
    (storeOk : Bool) (s' : UserStore)
    (h : TaskFolderRepository.deleteTaskFolder s folderId storeOk = .ok s') :
    s'.tasksOf folderId = []
    ∧ (∀ taskId, TaskRepository.getTaskByTaskId s' folderId taskId = none)
    ∧ TaskRepository.getTasksByFolderIn s' folderId =
        .error "Task folder not found" := by
  unfold TaskFolderRepository.deleteTaskFolder at h
  rcases storeOk with _ | _
  · cases h
  · rw [if_pos rfl] at h
    cases h
    have htasks : (Firestore.recursiveDelete s folderId).tasksOf folderId = [] := by
      unfold UserStore.tasksOf Firestore.recursiveDelete
      rw [filter_eq_after_filter_ne]
      rfl
    have hfolder : (Firestore.recursiveDelete s folderId).folderDoc? folderId
        = none := by
      unfold UserStore.folderDoc? Firestore.recursiveDelete
      rw [List.find?_eq_none.mpr]
      · rfl
      · intro p hp
        have := (List.mem_filter.mp hp).2
        simp at this ⊢
        exact this
    refine ⟨htasks, ?_, ?_⟩
    · intro taskId
      unfold TaskRepository.getTaskByTaskId
      rw [htasks]
      rfl
    · unfold TaskRepository.getTasksByFolderIn
      rw [hfolder]
      rfl

/-- A store with folder `f1` (five tasks) and folder `f2` (one task). -/
def demoStore : UserStore :=
  ⟨[("f1", "School"), ("f2", "Chores")],
   [("f1", ⟨"d1", "T1", "d", "pending", "High", 0, none⟩),
    ("f1", ⟨"d2", "T2", "d", "pending", "High", 0, none⟩),
    ("f1", ⟨"d3", "T3", "d", "completed", "High", 0, none⟩),
    ("f1", ⟨"d4", "T4", "d", "in progress", "High", 0, none⟩),
    ("f1", ⟨"d5", "T5", "d", "pending", "High", 0, none⟩),
    ("f2", ⟨"e1", "U1", "d", "pending", "High", 0, none⟩)]⟩

/-- Witness for C6: after successfully deleting folder `f1`, which held five
tasks, its task snapshot is empty, a point lookup of one of the five returns
`null`, and reading the folder fails with `NotFound`. -/
theorem deleteTaskFolder_cascades_witness :
    (Firestore.recursiveDelete demoStore "f1").tasksOf "f1" = []
    ∧ TaskRepository.getTaskByTaskId (Firestore.recursiveDelete demoStore "f1")
        "f1" "d3" = none
    ∧ TaskRepository.getTasksByFolderIn (Firestore.recursiveDelete demoStore "f1")
        "f1" = .error "Task folder not found" :=
  ⟨(deleteTaskFolder_cascades demoStore "f1" true _ rfl).1,
   (deleteTaskFolder_cascades demoStore "f1" true _ rfl).2.1 "d3",
   (deleteTaskFolder_cascades demoStore "f1" true _ rfl).2.2⟩

/-- The local calendar day index of an epoch-ms instant on a server whose UTC
offset is `tzOffsetMs`.  `Date.prototype.toDateString` renders weekday, month,
day-of-month and year in server-local time, and the weekday is a function of
the date, so two instants produce equal `toDateString` output exactly when
they have equal local day index. -/
def localDay (tzOffsetMs ms : Int) : Int := (ms + tzOffsetMs).fdiv 86400000

/-- The `filter` inside `TaskService.getTasksByDate` (src/unnamed/part_003
lines 58-80): keep the tasks whose `start_date` falls on the target calendar
day, discarding time-of-day. -/
def filterTasksByDate (tz target : Int) (tasks : List TaskDoc) : List TaskDoc :=
  tasks.filter fun t => decide (localDay tz t.start_date = localDay tz target)

/-- The per-bucket `filterByDate` helper inside
`TaskService.getTasksByDateInFolder` (src/unnamed/part_003 lines 90-132);
same day-equality comparison, applied to annotated tasks. -/
def filterTaskOutByDate (tz target : Int) (tasks : List TaskOut) : List TaskOut :=
  tasks.filter fun t => decide (localDay tz t.task.start_date = localDay tz target)

/-- `TaskService.getTasksByDate`: fetches all tasks for the user and filters
by calendar day; `null` from the repository stays absent
(`response?.filter`), and a thrown error becomes a failure envelope. -/
def TaskService.getTasksByDate (tz : Int)
    (repoResult : Except String (Option (List TaskDoc))) (date : Int) :
    SvcResponse (Option (List TaskDoc)) :=
  match repoResult with
  | .error e => ⟨false, .text ("Error fetching task of selected date: " ++ e)⟩
  | .ok r => ⟨true, .data (r.map (filterTasksByDate tz date))⟩

/-- `TaskService.getTasksByDateInFolder`: filters each of the three status
buckets independently by the same day-equality predicate and recombines them
into the three-bucket shape. -/
def TaskService.getTasksByDateInFolder (tz : Int)
    (repoResult : Except String TaskBuckets) (date : Int) :
    SvcResponse TaskBuckets :=
  match repoResult with
  | .error e => ⟨false, .text ("Error fetching tasks for selected date: " ++ e)⟩
  | .ok b =>
    ⟨true, .data ⟨filterTaskOutByDate tz date b.pending,
      filterTaskOutByDate tz date b.inProgress,
      filterTaskOutByDate tz date b.completed⟩⟩

/-- Claim C7: `tasksByDate` (and, per bucket, `tasksByDateInFolder`) selects
exactly the tasks whose `start_date` falls on the same calendar day as the
target date: a task is kept iff its local day index equals the target's, two
start dates on the same calendar day are treated identically regardless of
time-of-day, and the service returns precisely the filtered list (resp. the
three independently filtered buckets). -/
theorem tasksByDate_day_equality (tz date : Int) (ts : List TaskDoc)
    (b : TaskBuckets) :
    (∀ t ∈ ts, t ∈ filterTasksByDate tz date ts ↔
        localDay tz t.start_date = localDay tz date)
    ∧ (∀ t ∈ ts, ∀ u ∈ ts,
        localDay tz t.start_date = localDay tz u.start_date →
        (t ∈ filterTasksByDate tz date ts ↔ u ∈ filterTasksByDate tz date ts))
    ∧ TaskService.getTasksByDate tz (.ok (some ts)) date =
        ⟨true, .data (some (filterTasksByDate tz date ts))⟩
    ∧ TaskService.getTasksByDateInFolder tz (.ok b) date =
        ⟨true, .data ⟨filterTaskOutByDate tz date b.pending,
          filterTaskOutByDate tz date b.inProgress,
          filterTaskOutByDate tz date b.completed⟩⟩
    ∧ (∀ u ∈ b.pending, u ∈ filterTaskOutByDate tz date b.pending ↔
        localDay tz u.task.start_date = localDay tz date) := by
  have hmem : ∀ t ∈ ts, t ∈ filterTasksByDate tz date ts ↔
      localDay tz t.start_date = localDay tz date := by
    intro t ht
    simp [filterTasksByDate, List.mem_filter, ht]
  refine ⟨hmem, ?_, rfl, rfl, ?_⟩
  · intro t ht u hu hsame
    rw [hmem t ht, hmem u hu, hsame]
  · intro u hu
    simp [filterTaskOutByDate, List.mem_filter, hu]

/-- A task starting 2024-03-05
 at 23:59:00 UTC and one starting 2024-03-06 at 00:00:01 UTC. -/
def dateT_match : TaskDoc :=
  ⟨"m1", "Same day", "d", "pending", "High", 1709683140000, none⟩

def dateT_next : TaskDoc :=
  ⟨"m2", "Next day", "d", "pending", "High", 1709683201000, none⟩

/-- Witness for C7, on a UTC server with target day 2024-03-05: the
23:59:00 task matches, the 00:00:01 task of the next day does not. -/
theorem tasksByDate_day_equality_witness :
    dateT_match ∈ filterTasksByDate 0 1709596800000 [dateT_match, dateT_next]
    ∧ dateT_next ∉ filterTasksByDate 0 1709596800000 [dateT_match, dateT_next] := by
  constructor
  · exact ((tasksByDate_day_equality 0 1709596800000 [dateT_match, dateT_next]
      ⟨[], [], []⟩).1 dateT_match (by decide)).mpr (by decide)
  · intro hmem
    have hday := ((tasksByDate_day_equality 0 1709596800000
      [dateT_match, dateT_next] ⟨[], [], []⟩).1 dateT_next (by decide)).mp hmem
    exact absurd hday (by decide)

/-- `TaskService.deleteTask` (src/unnamed/part_003 lines 204-221), translated
exactly: note that the `catch` block returns `success: true` together with
the error message. -/
def TaskService.deleteTask (repoResult : Except String Unit) :
    SvcResponse Unit :=
  match repoResult with
  | .ok _ => ⟨true, .text "Successfully deleted task"⟩
  | .error e => ⟨true, .text ("Error deleting task: " ++ e)⟩

/-- `TaskFolderService.deleteTaskFolder` (src/unnamed/part_002 lines 94-111),
translated exactly: its `catch` block also returns `success: true`. -/
def TaskFolderService.deleteTaskFolder (repoResult : Except String Unit) :
    SvcResponse Unit :=
  match repoResult with
  | .ok _ => ⟨true, .text "Successfully deleted task folder"⟩
  | .error e => ⟨true, .text ("Error deleting task folder: " ++ e)⟩

/-- Claim C8 (code bug): when the underlying repository delete throws, both
delete services report `success: true` next to the error text, so a failed
operation IS reported as a success — the two catch blocks contradict the
uniform `success: false` error envelope that every other service catch
returns, and contradict their own error messages. -/
theorem deleteServices_report_success_on_error :
    TaskService.deleteTask (.error "boom") =
      ⟨true, .text "Error deleting task: boom"⟩
    ∧ TaskFolderService.deleteTaskFolder (.error "boom") =
      ⟨true, .text "Error deleting task folder: boom"⟩
    ∧ (TaskService.deleteTask (.error "boom")).success = true
    ∧ (TaskFolderService.deleteTaskFolder (.error "boom")).success = true :=
  ⟨rfl, rfl, rfl, rfl⟩

/-- The runtime state of a JSON field of the incoming request body: omitted
(`undefined`), explicitly `null`, or a string value. -/
inductive JsVal where
  | undef
  | null
  | str (s : String)
deriving DecidableEq, Repr

/-- The create/update input fields inspected by the validation guard. -/
structure TaskInput where
  title : JsVal
  description : JsVal
deriving DecidableEq, Repr

/-- `TaskService.createTask` (src/unnamed/part_003 lines 144-160): the guard
is `task.title === null || task.description === null`; there is no
`try/catch`, so a repository throw propagates raw.  The second component
records whether the repository write was reached. -/
def TaskService.createTask (t : TaskInput) (repoWrite : Except String Unit) :
    Except String (SvcResponse Unit) × Bool :=
  if t.title = JsVal.null ∨ t.description = JsVal.null then
    (.ok ⟨false, .text "Title or Description must not be empty"⟩, false)
  else
    match repoWrite with
    | .ok _ => (.ok ⟨true, .text "Successfully created task."⟩, true)
    | .error e => (.error e, true)

/-- `TaskService.updateTask` (src/unnamed/part_003 lines 171-195): the same
`=== null` guard, inside a `try/catch` whose message says "creating". -/
def TaskService.updateTask (t : TaskInput) (repoWrite : Except String Unit) :
    SvcResponse Unit × Bool :=
  if t.title = JsVal.null ∨ t.description = JsVal.null then
    (⟨false, .text "Title or Description must not be empty"⟩, false)
  else
    match repoWrite with
    | .ok _ => (⟨true, .text "Successfully updated task."⟩, true)
    | .error e => (⟨false, .text ("Error creating task: " ++ e)⟩, true)

/-- Claim C9 (code bug): the validation only rejects the explicit `null` —
the empty string passes.  A `createTask` whose title is `""` reaches the
repository write and reports success, and likewise `updateTask`,
contradicting the services' own documentation ("Returns an error if title or
description is empty"); only `null` short-circuits before the store is
touched. -/
theorem createTask_empty_string_not_rejected :
    TaskService.createTask ⟨.str "", .str "some description"⟩ (.ok ()) =
      (.ok ⟨true, .text "Successfully created task."⟩, true)
    ∧ TaskService.updateTask ⟨.str "", .str "some description"⟩ (.ok ()) =
      (⟨true, .text "Successfully updated task."⟩, true)
    ∧ TaskService.createTask ⟨.null, .str "some description"⟩ (.ok ()) =
      (.ok ⟨false, .text "Title or Description must not be empty"⟩, false) :=
  ⟨rfl, rfl, rfl⟩
